import Mathlib

/-!
Verification development for the typed API client pipeline
(src/lib/result.ts, src/lib/apiclient.ts) and the cancellable-call
state hook (src/hooks/asyncresult.ts).

The TypeScript code is shallowly embedded: JavaScript runtime values
appearing as endpoint parameters are modelled by `JSVal`, parsed JSON
documents by `JValue`, throwing computations by `Except`, and the
browser `fetch` transport by an explicit oracle function supplied to
the embedded `makeApiCall`.  The React hook is embedded as an
event-step machine over the hook state, with the event-loop schedule
left to an adversarial trace.
-/

namespace Artenos

/-- JavaScript runtime values that can appear in a parameter object
passed to an endpoint callable (strings, numbers, booleans, null,
undefined, and binary blobs).  Numbers are modelled as integers; no
claim depends on non-integral numerics. -/
inductive JSVal : Type where
  | str (s : String)
  | num (n : Int)
  | boolean (b : Bool)
  | null
  | undef
  | blob (data : List Nat)
  deriving Repr, DecidableEq

/-- JavaScript truthiness for a `JSVal`: the empty string, zero, false,
null and undefined are falsy; a Blob (an object) is always truthy. -/
def JSVal.truthy : JSVal → Bool
  | .str s => !(s = "")
  | .num n => !(n = 0)
  | .boolean b => b
  | .null => false
  | .undef => false
  | .blob _ => true

/-- JavaScript implicit string conversion of a `JSVal` (as performed by
`String.prototype.replace` on the value returned from a replacer). -/
def JSVal.jsToString : JSVal → String
  | .str s => s
  | .num n => toString n
  | .boolean b => if b then "true" else "false"
  | .null => "null"
  | .undef => "undefined"
  | .blob _ => "[object Blob]"

/-- Test for `value instanceof Blob`. -/
def JSVal.isBlob : JSVal → Bool
  | .blob _ => true
  | _ => false

/-- Test for what JavaScript typeof reports as a string. -/
def JSVal.isStr : JSVal → Bool
  | .str _ => true
  | _ => false

/-- A JavaScript object used as a parameter bag: ordered fields.  -/
def JSObj : Type := List (String × JSVal)

/-- Property access `obj[name]`: the first binding of `name`, or
`undefined` when the key is missing. -/
def JSObj.get (o : JSObj) (name : String) : JSVal :=
  match o with
  | [] => .undef
  | (k, v) :: rest => if k = name then v else JSObj.get rest name

/-- Parsed JSON documents (the possible outputs of `JSON.parse`). -/
inductive JValue : Type where
  | null
  | boolean (b : Bool)
  | num (n : Int)
  | str (s : String)
  | arr (elems : List JValue)
  | obj (fields : List (String × JValue))

/-! ## src/lib/result.ts

`Result<T, E>` with constructors `ok` / `err`, and the adapter helpers
`wrap`, `wrapAsync`, `unwrap`.  A throwing computation is embedded as
an `Except E T`: `.ok x` is a normal return of `x` and `.error e` is a
raised value `e`.  `wrapAsync` awaits a promise; after the await the
control flow is identical to `wrap`, so both are embedded over the
settled outcome of the computation. -/

/-- The two-variant Result type: `ok` holds a success value, `err` a
failure error. -/
inductive Result (T E : Type) : Type where
  | ok (value : T)
  | err (error : E)
  deriving Repr, DecidableEq

/-- Source `wrap(fn)`: try `ok(fn())` catch (e) `err(e)`. -/
def wrap {T E : Type} (fn : Except E T) : Result T E :=
  match fn with
  | .ok v => .ok v
  | .error e => .err e

/-- Source `wrapAsync(fn)`: try `ok(await fn())` catch (e) `err(e)` —
same outcome mapping as `wrap`, applied to the promise's settlement. -/
def wrapAsync {T E : Type} (fn : Except E T) : Result T E :=
  match fn with
  | .ok v => .ok v
  | .error e => .err e

/-- Source `unwrap(result)`: return the success payload, or throw the
stored error value. -/
def unwrap {T E : Type} (result : Result T E) : Except E T :=
  match result with
  | .ok v => .ok v
  | .err e => .error e

/-! ## Path substitution (src/lib/apiclient.ts, lines 132-137)

`path.replace(/\x7b([^}]+)\x7d/g, (_, paramName) => params[paramName] || "")`

The regex matches an opening brace, one or more non-`\x7d` characters,
and a closing brace.  The replacer looks the captured token up in the
parameter object; a falsy value (including a missing key, which reads
as `undefined`) yields the empty string, and a truthy value is
converted to a string by `replace`. -/

/-- Split a character list at the first closing brace: returns the
characters before it and the remainder after it, or `none` when no
closing brace occurs. -/
def splitOnBrace : List Char → Option (List Char × List Char)
  | [] => none
  | c :: rest =>
    if c = '}' then some ([], rest)
    else (splitOnBrace rest).map (fun p => (c :: p.1, p.2))

theorem splitOnBrace_length {l tok rest : List Char}
    (h : splitOnBrace l = some (tok, rest)) : rest.length < l.length := by
  induction l generalizing tok rest with
  | nil => simp [splitOnBrace] at h
  | cons c cs ih =>
    simp only [splitOnBrace] at h
    by_cases hc : c = '}'
    · rw [if_pos hc] at h
      obtain ⟨h1, h2⟩ := Prod.mk.injEq .. ▸ Option.some.injEq .. ▸ h
      subst h2
      simp
    · rw [if_neg hc, Option.map_eq_some'] at h
      obtain ⟨⟨t, r⟩, hp, he⟩ := h
      obtain ⟨h1, h2⟩ := Prod.mk.injEq .. ▸ he
      subst h2
      have := ih hp
      simp only [List.length_cons]
      omega

/-- The replacement text for one matched token: the parameter value if
truthy (stringified by `replace`), otherwise the empty string
(`params[paramName] || ""`). -/
def replacementFor (params : JSObj) (token : String) : String :=
  let v := params.get token
  if v.truthy then v.jsToString else ""

/-- The global regex replacement over the character list of the path:
at each `\x7b`, if a `\x7d` follows with at least one character in
between, the whole bracketed run is replaced; otherwise scanning moves
on (the regex does not match there). -/
def substChars (params : JSObj) : List Char → List Char
  | [] => []
  | c :: rest =>
    if c = '{' then
      match h : splitOnBrace rest with
      | some (tok, rest2) =>
        if tok.isEmpty then c :: substChars params rest
        else (replacementFor params (String.mk tok)).data ++ substChars params rest2
      | none => c :: substChars params rest
    else c :: substChars params rest
termination_by l => l.length
decreasing_by
  · simp only [List.length_cons]; omega
  · have := splitOnBrace_length h
    simp only [List.length_cons]; omega
  · simp only [List.length_cons]; omega
  · simp only [List.length_cons]; omega

/-- Path-parameter substitution as performed by `makeApiCall` before
any other step. -/
def substPath (path : String) (params : JSObj) : String :=
  String.mk (substChars params path.data)

/-! ## src/lib/apiclient.ts -/

/-- HTTP methods of the `Method` const object. -/
inductive Method : Type where
  | GET
  | POST
  | PATCH
  | PUT
  | DELETE
  deriving Repr, DecidableEq

/-- Numeric value of the TypeScript enum member `BodyContentType.json`
(enum members without initializers are numbered from 0). -/
def BodyContentType.json : Nat := 0

/-- Numeric value of the enum member `BodyContentType.multipart`. -/
def BodyContentType.multipart : Nat := 1

/-- Values a zod `.parse` call can throw: a `ZodError` carrying
validation issues, or any other exception.  Issue contents are
abstracted to strings; only their presence matters to the client. -/
inductive ZodThrown : Type where
  | zodError (issues : List String)
  | other (msg : String)

/-- A zod schema, modelled by its `parse` capability: it either
returns the typed value or throws. -/
structure ZodSchema (α : Type) : Type where
  parse : JValue → Except ZodThrown α

/-- Zod schema intersection `s.and(t)`: parsing succeeds exactly when
both sides accept the document, producing the merged (paired) value;
a throw from either side propagates. -/
def ZodSchema.and {α β : Type} (s : ZodSchema α) (t : ZodSchema β) :
    ZodSchema (α × β) where
  parse j := do
    let a ← s.parse j
    let b ← t.parse j
    pure (a, b)

/-- A zod schema whose `parse` only ever throws `ZodError`s — the
documented contract of zod validation. -/
def ZodSchema.Tame {α : Type} (s : ZodSchema α) : Prop :=
  ∀ j m, s.parse j ≠ .error (.other m)

/-- The `APIResponse<B>` success payload: HTTP status and validated body. -/
structure APIResponse (B : Type) : Type where
  status : Nat
  body : B
  deriving DecidableEq

/-- The closed error taxonomy `APIError<B>` of the client, one
constructor per error class, each carrying the fields of its source
class (`Error` causes are abstracted to their messages). -/
inductive APIError (ε β : Type) : Type where
  | fetchAPIError (message : String) (fetchError : String)
  | parseAPIError (message : String) (parseError : String) (bodyText : Option String)
  | schemaAPIError (message : String) (schemaErrors : List String) (bodyJSON : Option JValue)
  | errorResponseAPIError (message : String) (status : Nat) (body : ε × β)
  | requestDataError (message : String)

/-- Assignment `obj[name] = value` on a string-valued JavaScript
object: overwrite in place if present, else append. -/
def setKey : List (String × String) → String → String → List (String × String)
  | [], name, value => [(name, value)]
  | (k, w) :: rest, name, value =>
    if k = name then (k, value) :: rest else (k, w) :: setKey rest name value

/-- Deletion `delete obj[name]` on a string-valued JavaScript object. -/
def delKey : List (String × String) → String → List (String × String)
  | [], _ => []
  | (k, w) :: rest, name =>
    if k = name then delKey rest name else (k, w) :: delKey rest name

/-- The `RequestContext` class: a mutable header map.  Mutation is
modelled by explicit state passing. -/
structure RequestContext : Type where
  headers : List (String × String)
  deriving DecidableEq

/-- Method `addHeader(name, value)`: `this.headers[name] = value`. -/
def RequestContext.addHeader (ctx : RequestContext) (name value : String) :
    RequestContext :=
  ⟨setKey ctx.headers name value⟩

/-- Method `removeHeader(name)`: `delete this.headers[name]`. -/
def RequestContext.removeHeader (ctx : RequestContext) (name : String) :
    RequestContext :=
  ⟨delKey ctx.headers name⟩

/-- Method `getHeaders()`: returns a spread copy of the header map.
The copy is what makes the dispatch-time snapshot immune to later
mutation; in the state-passing model it reads the current state. -/
def RequestContext.getHeaders (ctx : RequestContext) : List (String × String) :=
  ctx.headers

/-- Request bodies: a JSON-serialized parameter object (the
serialized string of `JSON.stringify(params)` is kept symbolically,
as no claim inspects the wire text) or a `FormData` with its appended
entries. -/
inductive BodyVal : Type where
  | jsonStringified (params : JSObj)
  | formData (entries : List (String × JSVal))

/-- The multipart loop of `makeApiCall`: for each `key in params`,
reject any value that is neither a `Blob` nor a string, identifying
the offending field in the message; otherwise append it. -/
def buildFormData : JSObj → List (String × JSVal) → Except String (List (String × JSVal))
  | [], acc => .ok acc.reverse
  | (key, v) :: rest, acc =>
    if v.isBlob = false && v.isStr = false then
      .error ("Invalid multipart body data type for param " ++ key ++
        ". Only string and Blob are allowed.")
    else buildFormData rest ((key, v) :: acc)

/-- Body construction of `makeApiCall` (lines 139-162): JSON
serialization for `json`, the multipart loop for `multipart`, and a
request-data failure for any other encoding value. -/
def mkBody (bodyContentType : Nat) (params : JSObj) : Except String BodyVal :=
  if bodyContentType = BodyContentType.json then
    .ok (.jsonStringified params)
  else if bodyContentType = BodyContentType.multipart then
    (buildFormData params []).map .formData
  else
    .error ("Invalid body content type " ++ toString bodyContentType)

/-- A dispatched HTTP request as handed to `fetch`. -/
structure Request : Type where
  url : String
  method : Method
  headers : List (String × String)
  credentials : String
  body : Option BodyVal
  signal : Option Nat

/-- A transport response: status, status text, and the outcome of
reading its body as text (`response.text()` may itself throw). -/
structure Response : Type where
  status : Nat
  statusText : String
  textResult : Except String String

/-- Property `response.ok`: status in the inclusive range 200-299. -/
def Response.ok (r : Response) : Bool :=
  decide (200 ≤ r.status) && decide (r.status ≤ 299)

/-- Outcome of a `fetch` call: it throws (network failure, abort) or
returns a response. -/
inductive FetchOutcome : Type where
  | throws (msg : String)
  | returns (resp : Response)

/-- Header construction inside the fetch block: a snapshot of the
request context, with `Content-Type: application/json` force-set for
JSON-encoded bodies and left implicit for multipart. -/
def buildHeaders (requestContext : RequestContext) (bodyContentType : Nat) :
    List (String × String) :=
  let headers := requestContext.getHeaders
  if bodyContentType = BodyContentType.json then
    setKey headers "Content-Type" "application/json"
  else headers

/-- The request `makeApiCall` hands to `fetch`: substituted URL, the
header snapshot, hard-coded `credentials: "include"`, the body
(omitted for GET), and the per-call abort signal. -/
def buildRequest (method : Method) (baseUrl path : String) (params : JSObj)
    (bodyContentType : Nat) (requestContext : RequestContext)
    (body : BodyVal) (abortSignal : Option Nat) : Request where
  url := baseUrl ++ substPath path params
  method := method
  headers := buildHeaders requestContext bodyContentType
  credentials := "include"
  body := if method = Method.GET then none else some body
  signal := abortSignal

/-- The Endpoint Invoker `makeApiCall` (lines 118-257).  The browser
built-ins are supplied as explicit oracles: `jsonParse` models
`JSON.parse` (throwing modelled as `.error`), `fetchImpl` models the
`fetch` transport.  The first component of the return value is the
settled outcome of the promise — `.ok` a returned `Result`, `.error`
a raised value (the function re-raises non-`ZodError` exceptions
escaping `schema.parse`).  The second component instruments the model
with the request that was dispatched, if any, so that claims about
"no network I/O" and header snapshots are statable. -/
def makeApiCall {β σ ε : Type}
    (jsonParse : String → Except String JValue)
    (fetchImpl : Request → FetchOutcome)
    (method : Method) (baseUrl : String) (path : String) (params : JSObj)
    (bodyContentType : Nat)
    (baseResponseSchema : ZodSchema β)
    (responseSchema : ZodSchema σ)
    (errorResponseSchema : ZodSchema ε)
    (requestContext : RequestContext)
    (abortSignal : Option Nat) :
    Except String (Result (APIResponse (σ × β)) (APIError ε β)) × Option Request :=
  match mkBody bodyContentType params with
  | .error msg => (.ok (.err (.requestDataError msg)), none)
  | .ok body =>
    let req := buildRequest method baseUrl path params bodyContentType
      requestContext body abortSignal
    match fetchImpl req with
    | .throws m =>
      (.ok (.err (.fetchAPIError ("Error making API call: " ++ m) m)), some req)
    | .returns response =>
      match response.textResult with
      | .error m =>
        (.ok (.err (.parseAPIError
          ("Error reading response body, failed while parsing as text: " ++ m)
          m none)), some req)
      | .ok bodyText =>
        match jsonParse bodyText with
        | .error m =>
          (.ok (.err (.parseAPIError
            ("Error parsing response body as JSON: " ++ m) m (some bodyText))),
            some req)
        | .ok bodyJSON =>
          if response.ok = false then
            match (errorResponseSchema.and baseResponseSchema).parse bodyJSON with
            | .error (.zodError issues) =>
              (.ok (.err (.schemaAPIError
                "Error validating error response body schema" issues
                (some bodyJSON))), some req)
            | .error (.other m) => (.error m, some req)
            | .ok parsedError =>
              (.ok (.err (.errorResponseAPIError response.statusText
                response.status parsedError)), some req)
          else
            match (responseSchema.and baseResponseSchema).parse bodyJSON with
            | .error (.zodError issues) =>
              (.ok (.err (.schemaAPIError
                "Error validating response body schema" issues
                (some bodyJSON))), some req)
            | .error (.other m) => (.error m, some req)
            | .ok parsedBody =>
              (.ok (.ok ⟨response.status, parsedBody⟩), some req)

/-- Transport options as supplied by the repository's service layer
(src/service/api.ts passes `fetchOptions: { credentials: "include" }`
to `createAPIClient`). -/
structure FetchOptions : Type where
  credentials : Option String
  deriving DecidableEq

/-- One endpoint's declaration from the endpoint configuration.  The
`pathParamsSchema` and `requestSchema` fields only inform static
types and are never consulted by the invocation pipeline, so they are
not part of the runtime model. -/
structure EndpointCfg (σ ε : Type) : Type where
  method : Method
  path : String
  responseSchema : ZodSchema σ
  errorResponseSchema : ZodSchema ε
  bodyContentType : Option Nat

/-- The options object accepted by `createAPIClient`.  The
`fetchOptions` field is present because the repository's own caller
supplies it; `createAPIClient` destructures only the other four
names, so whether it is read at all is exactly what claim C3 is
about. -/
structure CreateOpts (β σ ε : Type) : Type where
  baseUrl : String
  baseResponseSchema : ZodSchema β
  endpointConfig : List (String × EndpointCfg σ ε)
  requestContext : Option RequestContext
  fetchOptions : Option FetchOptions

/-- JavaScript `x || d` for an optional numeric enum value
(`config.bodyContentType || BodyContentType.json`): `undefined` and
the falsy enum value 0 both select the default. -/
def jsOrDefault (x : Option Nat) (d : Nat) : Nat :=
  match x with
  | none => d
  | some v => if v = 0 then d else v

/-- The endpoint callables a client instance exposes: parameters and
an optional abort signal in, the instrumented invoker outcome out. -/
def EndpointFn (β σ ε : Type) : Type :=
  JSObj → Option Nat →
    Except String (Result (APIResponse (σ × β)) (APIError ε β)) × Option Request

/-- The API Client Factory `createAPIClient` (lines 312-350): one
callable per endpoint, each pre-bound to `makeApiCall` with its fixed
method/path/schemas/encoding, the shared base URL, base schema and
request context (defaulted to a fresh empty one). -/
def createAPIClient {β σ ε : Type}
    (jsonParse : String → Except String JValue)
    (fetchImpl : Request → FetchOutcome)
    (o : CreateOpts β σ ε) : List (String × EndpointFn β σ ε) :=
  let requestContext :=
    match o.requestContext with
    | some ctx => ctx
    | none => { headers := [] }
  o.endpointConfig.map fun p =>
    (p.1, fun params abortSignal =>
      let bodyContentType := jsOrDefault p.2.bodyContentType BodyContentType.json
      makeApiCall jsonParse fetchImpl p.2.method o.baseUrl p.2.path params
        bodyContentType o.baseResponseSchema p.2.responseSchema
        p.2.errorResponseSchema requestContext abortSignal)

/-! ## Header-mutation traces

The `RequestContext` is mutated externally (login/logout) while calls
dispatch concurrently.  A serialized trace of context operations
models this: each `dispatch` event takes the header snapshot that
`makeApiCall` would embed in its request at that moment. -/

/-- One externally observable operation on a shared `RequestContext`:
a header mutation, or an endpoint call dispatching (with its body
content type, which decides the forced `Content-Type` header). -/
inductive CtxEvent : Type where
  | add (name value : String)
  | remove (name : String)
  | dispatch (bodyContentType : Nat)

/-- Run a trace of context operations: returns the final context and
the header snapshots taken by the dispatches, in dispatch order. -/
def ctxRun : RequestContext → List CtxEvent →
    RequestContext × List (List (String × String))
  | ctx, [] => (ctx, [])
  | ctx, .add n v :: rest => ctxRun (ctx.addHeader n v) rest
  | ctx, .remove n :: rest => ctxRun (ctx.removeHeader n) rest
  | ctx, .dispatch bct :: rest =>
    let r := ctxRun ctx rest
    (r.1, buildHeaders ctx bct :: r.2)

/-! ## src/hooks/asyncresult.ts

The hook's `call` function is embedded as an event-step machine.  One
invocation of `call` decomposes into the atomic segments between its
suspension points:

* `start`: the synchronous prologue — if `loading` is set, abort the
  current controller and suspend on a one-tick timer (`waitingTick`);
  otherwise install a fresh controller, clear `result`, set `loading`
  and invoke `fn` (`inFlight`);
* `tick`: the timer fires — if `loading` is still set, throw the
  fatal invariant error (`threw`); otherwise proceed as above;
* `resolve`: the invoked `fn` settles — store its `Result` and clear
  `loading` (the `finally`).

The event-loop schedule (in particular, when a superseded `fn`
observes its abort signal and settles) is an adversarial trace; a
step is rejected (`none`) when its event cannot occur in the current
state, e.g. a promise settling twice. -/

/-- Progress of one `call` invocation through its segments.
`inFlight`/`done` record whether the invocation went through the
overlap path (cancelled a predecessor and waited a tick). -/
inductive Phase : Type where
  | notStarted
  | waitingTick
  | inFlight (viaTick : Bool)
  | done (viaTick : Bool)
  | threw
  deriving Repr, DecidableEq

/-- Whether an invocation is between invoking `fn` and its settlement. -/
def Phase.isInFlight : Phase → Bool
  | .inFlight _ => true
  | _ => false

/-- Whether an invocation has stored its result and cleared loading. -/
def Phase.isDone : Phase → Bool
  | .done _ => true
  | _ => false

/-- The visible and internal state of one `useAsyncResult` instance,
plus the progress of the two `call` invocations of the scenario under
analysis.  Abort controllers are identified by generation numbers;
`aborted` collects the generations whose `abort()` was invoked. -/
structure HookSt (R : Type) : Type where
  result : Option R
  loading : Bool
  current : Option Nat
  nextGen : Nat
  aborted : List Nat
  p1 : Phase
  p2 : Phase
  deriving Repr, DecidableEq

/-- Phase of invocation 1 (`second = false`) or 2 (`second = true`). -/
def HookSt.phase {R : Type} (st : HookSt R) (second : Bool) : Phase :=
  if second then st.p2 else st.p1

/-- Update the phase of the selected invocation. -/
def HookSt.setPhase {R : Type} (st : HookSt R) (second : Bool) (p : Phase) :
    HookSt R :=
  if second then { st with p2 := p } else { st with p1 := p }

/-- Model of `abortControllerRef.current?.abort(reason)`: mark the
current generation aborted, a no-op when the ref is still null. -/
def abortCurrent {R : Type} (st : HookSt R) : HookSt R :=
  match st.current with
  | some g => { st with aborted := g :: st.aborted }
  | none => st

/-- The launch segment of `call` (lines 55-59): install a fresh
`AbortController`, `setResult(undefined)`, `setLoading(true)`, and
invoke `fn` with the new controller's signal. -/
def launch {R : Type} (st : HookSt R) (second viaTick : Bool) : HookSt R :=
  ({ st with
      current := some st.nextGen
      nextGen := st.nextGen + 1
      result := none
      loading := true }).setPhase second (.inFlight viaTick)

/-- Scheduler events: a `call` invocation starts, its one-tick timer
fires, or its invoked `fn` settles. -/
inductive HookEv : Type where
  | start (second : Bool)
  | tick (second : Bool)
  | resolve (second : Bool)
  deriving Repr, DecidableEq

/-- One scheduler step.  `v1`/`v2` are the `Result` values the two
invocations' `fn` promises settle with. -/
def hookStep {R : Type} (v1 v2 : R) : HookEv → HookSt R → Option (HookSt R)
  | .start second, st =>
    if st.phase second = Phase.notStarted then
      if st.loading then
        some ((abortCurrent st).setPhase second .waitingTick)
      else
        some (launch st second false)
    else none
  | .tick second, st =>
    if st.phase second = Phase.waitingTick then
      if st.loading then
        some (st.setPhase second .threw)
      else
        some (launch st second true)
    else none
  | .resolve second, st =>
    match st.phase second with
    | .inFlight viaTick =>
      some (({ st with
          result := some (if second then v2 else v1)
          loading := false }).setPhase second (.done viaTick))
    | _ => none

/-- Run a schedule from a state; `none` when some event could not
occur there. -/
def hookRun {R : Type} (v1 v2 : R) : List HookEv → HookSt R → Option (HookSt R)
  | [], st => some st
  | e :: rest, st =>
    match hookStep v1 v2 e st with
    | some st' => hookRun v1 v2 rest st'
    | none => none

/-- The hook state on mount: no result, not loading, null controller
ref, neither invocation started. -/
def hookInit {R : Type} : HookSt R :=
  { result := none, loading := false, current := none, nextGen := 0
    aborted := [], p1 := .notStarted, p2 := .notStarted }

/-- Scheduler-independent invariant of the hook machine, relative to
the value `v2` the second invocation's promise settles with: the
loading flag tracks exactly the (at most one) invocation that is
between invoking `fn` and settlement; a second invocation waiting on
its cancellation tick has its predecessor in flight or already
settled; once the second invocation launches via the overlap path its
predecessor has settled; and once it is done via the overlap path the
stored result is its own value, with the first call settled before
it. -/
def Good {R : Type} (v2 : R) (st : HookSt R) : Prop :=
  (st.loading = true ↔
    (st.p1.isInFlight = true ∨ st.p2.isInFlight = true)) ∧
  ¬(st.p1.isInFlight = true ∧ st.p2.isInFlight = true) ∧
  (st.p2 = .waitingTick → st.p1.isInFlight = true ∨ st.p1.isDone = true) ∧
  (st.p2 = .inFlight true → st.p1.isDone = true) ∧
  (st.p2 = .done true → st.p1.isDone = true ∧ st.result = some v2)

/-! ## Auxiliary observers and concrete fixtures -/

/-- The first parameter (in object order) whose value the multipart
loop rejects: neither a `Blob` nor a string. -/
def firstBadParam : JSObj → Option String
  | [] => none
  | (k, v) :: rest =>
    if v.isBlob = false && v.isStr = false then some k else firstBadParam rest

/-- A trivial JSON.parse oracle for concrete instantiations. -/
def cexJsonParse : String → Except String JValue :=
  fun _ => .ok (JValue.obj [])

/-- A transport oracle that always fails, for concrete
instantiations exercising pre-network behaviour. -/
def cexFetch : Request → FetchOutcome :=
  fun _ => .throws "network unreachable"

/-- A schema accepting every document, for concrete instantiations. -/
def cexSchema : ZodSchema Unit :=
  { parse := fun _ => .ok () }

/-- Concrete factory options with a caller-supplied transport
override `fetchOptions.credentials = "omit"` (the same shape the
repository's service layer passes, with a mode that differs from the
hard-coded one so that merging would be observable). -/
def cexOpts : CreateOpts Unit Unit Unit where
  baseUrl := "https://api.example.com"
  baseResponseSchema := cexSchema
  endpointConfig :=
    [("health",
      { method := .GET
        path := "/health"
        responseSchema := cexSchema
        errorResponseSchema := cexSchema
        bodyContentType := none })]
  requestContext := none
  fetchOptions := some { credentials := some "omit" }

/-- The credentials mode of the request dispatched by each endpoint
of the concrete client, in endpoint order. -/
def cexDispatchedCredentials : List (Option String) :=
  (createAPIClient cexJsonParse cexFetch cexOpts).map
    (fun p => ((p.2 [] none).2).map Request.credentials)

/-- Concrete hook state: first call in flight, second not started. -/
def stOverlapA : HookSt Nat :=
  { result := none, loading := true, current := some 0, nextGen := 1
    aborted := [], p1 := .inFlight false, p2 := .notStarted }

/-- Concrete hook state: first call settled, second awaiting its
cancellation tick. -/
def stOverlapB : HookSt Nat :=
  { result := some 1, loading := false, current := some 0, nextGen := 1
    aborted := [0], p1 := .done false, p2 := .waitingTick }

/-- Concrete hook state: second call launched via the overlap path. -/
def stOverlapT : HookSt Nat :=
  { result := none, loading := true, current := some 1, nextGen := 2
    aborted := [0], p1 := .done false, p2 := .inFlight true }

/-- Concrete hook state: both calls settled, second one last. -/
def stOverlapFinal : HookSt Nat :=
  { result := some 2, loading := false, current := some 1, nextGen := 2
    aborted := [0], p1 := .done false, p2 := .done true }

/-! ## Helper lemmas -/

theorem splitOnBrace_append (tok rest : List Char) (h : '}' ∉ tok) :
    splitOnBrace (tok ++ '}' :: rest) = some (tok, rest) := by
  induction tok with
  | nil => simp [splitOnBrace]
  | cons c cs ih =>
    have hc : ¬(c = '}') := by
      intro hc
      exact h (by simp [hc])
    have hcs : '}' ∉ cs := fun hm => h (List.mem_cons_of_mem _ hm)
    rw [List.cons_append, splitOnBrace, if_neg hc, ih hcs]
    rfl

theorem substChars_nil (params : JSObj) : substChars params [] = [] := by
  rw [substChars]

theorem substChars_cons_ne (params : JSObj) (c : Char) (rest : List Char)
    (hc : ¬(c = '{')) :
    substChars params (c :: rest) = c :: substChars params rest := by
  rw [substChars, if_neg hc]

theorem substChars_cons_brace (params : JSObj) (tok rest : List Char)
    (htok : '}' ∉ tok) (hne : tok ≠ []) :
    substChars params ('{' :: (tok ++ '}' :: rest)) =
      (replacementFor params (String.mk tok)).data ++ substChars params rest := by
  rw [substChars, if_pos rfl]
  rw [splitOnBrace_append tok rest htok]
  simp [List.isEmpty_iff, hne]

theorem substChars_no_brace (params : JSObj) (pre l : List Char)
    (h : '{' ∉ pre) :
    substChars params (pre ++ l) = pre ++ substChars params l := by
  induction pre with
  | nil => simp
  | cons c cs ih =>
    have hc : ¬(c = '{') := by
      intro hc
      exact h (by simp [hc])
    have hcs : '{' ∉ cs := fun hm => h (List.mem_cons_of_mem _ hm)
    rw [List.cons_append, substChars_cons_ne params c _ hc, ih hcs,
      List.cons_append]


/-- C7: wrap and wrapAsync turn a normal return into a success Result
and a raised value into a failure Result holding it unchanged; unwrap
returns the success payload and re-raises the stored error as-is. -/
theorem result_wrap_unwrap_roundtrip (T E : Type) (x : T) (e : E) :
    @wrap T E (.ok x) = .ok x ∧
    @wrap T E (.error e) = .err e ∧
    @wrapAsync T E (.ok x) = .ok x ∧
    @wrapAsync T E (.error e) = .err e ∧
    unwrap (@Result.ok T E x) = .ok x ∧
    unwrap (@Result.err T E e) = .error e :=
  ⟨rfl, rfl, rfl, rfl, rfl, rfl⟩

/-- C5 counterexample: with template `/items/\x7bid\x7d` and the key
`id` present with value 0, the substitution yields `/items/` and not
`/items/0`, so a present key is not always replaced by the string
value of its parameter. -/
theorem substPath_string_value_cex :
    substPath "/items/{id}" [("id", JSVal.num 0)] = "/items/" ∧
    substPath "/items/{id}" [("id", JSVal.num 0)] ≠ "/items/0" := by
  have h : substPath "/items/{id}" [("id", JSVal.num 0)] = "/items/" := by
    simp [substPath, substChars, splitOnBrace, replacementFor, JSObj.get,
      JSVal.truthy, JSVal.jsToString]
  refine ⟨h, ?_⟩
  rw [h]
  decide

/-- C5 amended: every bracketed token in the template is replaced by
the string value of the parameter when that value is truthy, and by
the empty string when the key is missing or its value is falsy; a
missing key never causes an error. -/
theorem substPath_token_replacement (params : JSObj) (path : String)
    (pre tok rest : List Char)
    (hsplit : path.data = pre ++ '{' :: (tok ++ '}' :: rest))
    (hpre : '{' ∉ pre) (htok : '}' ∉ tok) (hne : tok ≠ []) :
    substPath path params =
      String.mk (pre ++
        ((if (params.get (String.mk tok)).truthy then
          (params.get (String.mk tok)).jsToString.data else []) ++
        substChars params rest)) := by
  rw [substPath, hsplit, substChars_no_brace params pre _ hpre,
    substChars_cons_brace params tok rest htok hne]
  simp only [replacementFor]
  split
  · rfl
  · rfl

theorem substPath_token_replacement_witness :
    substPath "/users/{userId}" [("userId", JSVal.str "123")] = "/users/123" ∧
    substPath "/users/{userId}" [] = "/users/" := by
  constructor
  · have h := substPath_token_replacement [("userId", JSVal.str "123")]
      "/users/{userId}" "/users/".data "userId".data [] (by decide) (by decide)
      (by decide) (by decide)
    rw [h]
    simp [substChars, JSObj.get, JSVal.truthy, JSVal.jsToString]
  · have h := substPath_token_replacement [] "/users/{userId}"
      "/users/".data "userId".data [] (by decide) (by decide)
      (by decide) (by decide)
    rw [h]
    simp [substChars, JSObj.get, JSVal.truthy]

/-- C10: a placeholder whose parameter value is present but falsy is
substituted with the empty string (the substitution tests
truthiness), not with the string form of the value. -/
theorem substPath_falsy_empty (params : JSObj) (path : String)
    (pre tok rest : List Char)
    (hsplit : path.data = pre ++ '{' :: (tok ++ '}' :: rest))
    (hpre : '{' ∉ pre) (htok : '}' ∉ tok) (hne : tok ≠ [])
    (hfalsy : (params.get (String.mk tok)).truthy = false) :
    substPath path params = String.mk (pre ++ substChars params rest) := by
  rw [substPath, hsplit, substChars_no_brace params pre _ hpre,
    substChars_cons_brace params tok rest htok hne]
  simp [replacementFor, hfalsy]

theorem substPath_falsy_empty_witness :
    substPath "/items/{id}" [("id", JSVal.num 0)] = "/items/" := by
  have h := substPath_falsy_empty [("id", JSVal.num 0)] "/items/{id}"
    "/items/".data "id".data [] (by decide) (by decide) (by decide) (by decide)
    (by decide)
  rw [h]
  simp [substChars]


theorem tame_and {α γ : Type} {s : ZodSchema α} {t : ZodSchema γ}
    (hs : s.Tame) (ht : t.Tame) : (s.and t).Tame := by
  intro j m h
  simp only [ZodSchema.and] at h
  cases hsj : s.parse j with
  | error e =>
    rw [hsj] at h
    cases e with
    | zodError issues =>
      simp [Bind.bind, Except.bind, Functor.map, Except.map] at h
    | other m2 => exact hs j m2 hsj
  | ok a =>
    rw [hsj] at h
    cases htj : t.parse j with
    | error e =>
      rw [htj] at h
      cases e with
      | zodError issues =>
        simp [Bind.bind, Except.bind, Functor.map, Except.map] at h
      | other m2 => exact ht j m2 htj
    | ok b =>
      rw [htj] at h
      simp [Bind.bind, Except.bind, Functor.map, Except.map, pure,
        Except.pure] at h

/-- C1: after a successfully read and JSON-parsed response body, the
HTTP status is branched on before any body-shape validation: a
success status with a body validating against (success schema AND
base schema) yields a success Result with the status and merged body;
a success status with a failing body yields a schema error (never a
success, never an error-response error); a failure status with a body
validating against (error schema AND base schema) yields a failure
tagged error-response carrying the status and validated error body;
and a failure status with a failing body yields a schema error. -/
theorem makeApiCall_status_branching {β σ ε : Type}
    (jsonParse : String → Except String JValue)
    (fetchImpl : Request → FetchOutcome)
    (method : Method) (baseUrl path : String) (params : JSObj)
    (bodyContentType : Nat) (baseResponseSchema : ZodSchema β)
    (responseSchema : ZodSchema σ) (errorResponseSchema : ZodSchema ε)
    (requestContext : RequestContext) (abortSignal : Option Nat)
    (body : BodyVal) (response : Response) (bodyText : String)
    (bodyJSON : JValue)
    (hbody : mkBody bodyContentType params = .ok body)
    (hfetch : fetchImpl (buildRequest method baseUrl path params
      bodyContentType requestContext body abortSignal) = .returns response)
    (htext : response.textResult = .ok bodyText)
    (hjson : jsonParse bodyText = .ok bodyJSON) :
    ((response.ok = true → ∀ b,
      (responseSchema.and baseResponseSchema).parse bodyJSON = .ok b →
      (makeApiCall jsonParse fetchImpl method baseUrl path params
        bodyContentType baseResponseSchema responseSchema
        errorResponseSchema requestContext abortSignal).1 =
        .ok (.ok { status := response.status, body := b })) ∧
    (response.ok = true → ∀ issues,
      (responseSchema.and baseResponseSchema).parse bodyJSON =
        .error (.zodError issues) →
      (makeApiCall jsonParse fetchImpl method baseUrl path params
        bodyContentType baseResponseSchema responseSchema
        errorResponseSchema requestContext abortSignal).1 =
        .ok (.err (.schemaAPIError "Error validating response body schema"
          issues (some bodyJSON)))) ∧
    (response.ok = false → ∀ eb,
      (errorResponseSchema.and baseResponseSchema).parse bodyJSON = .ok eb →
      (makeApiCall jsonParse fetchImpl method baseUrl path params
        bodyContentType baseResponseSchema responseSchema
        errorResponseSchema requestContext abortSignal).1 =
        .ok (.err (.errorResponseAPIError response.statusText
          response.status eb))) ∧
    (response.ok = false → ∀ issues,
      (errorResponseSchema.and baseResponseSchema).parse bodyJSON =
        .error (.zodError issues) →
      (makeApiCall jsonParse fetchImpl method baseUrl path params
        bodyContentType baseResponseSchema responseSchema
        errorResponseSchema requestContext abortSignal).1 =
        .ok (.err (.schemaAPIError
          "Error validating error response body schema" issues
          (some bodyJSON))))) := by
  refine ⟨?_, ?_, ?_, ?_⟩
  · intro hok b hparse
    simp only [makeApiCall, hbody, hfetch, htext, hjson, hok, hparse]
    rfl
  · intro hok issues hparse
    simp only [makeApiCall, hbody, hfetch, htext, hjson, hok, hparse]
    rfl
  · intro hok eb hparse
    simp only [makeApiCall, hbody, hfetch, htext, hjson, hok, hparse]
    rfl
  · intro hok issues hparse
    simp only [makeApiCall, hbody, hfetch, htext, hjson, hok, hparse]
    rfl


theorem makeApiCall_status_branching_witness :
    (makeApiCall cexJsonParse
      (fun _ => .returns { status := 200, statusText := "OK", textResult := .ok "{}" })
      .GET "https://api.example.com" "/health" [] BodyContentType.json
      cexSchema cexSchema cexSchema { headers := [] } none).1 =
      .ok (.ok { status := 200, body := ((), ()) }) := by
  have h := makeApiCall_status_branching cexJsonParse
    (fun _ => .returns { status := 200, statusText := "OK", textResult := .ok "{}" })
    .GET "https://api.example.com" "/health" [] BodyContentType.json
    cexSchema cexSchema cexSchema { headers := [] } none
    (.jsonStringified []) { status := 200, statusText := "OK", textResult := .ok "{}" }
    "{}" (.obj []) rfl rfl rfl rfl
  exact h.1 (by decide) ((), ()) rfl

theorem buildFormData_error (params : JSObj) (k : String)
    (h : firstBadParam params = some k) : ∀ acc,
    buildFormData params acc = .error
      ("Invalid multipart body data type for param " ++ k ++
        ". Only string and Blob are allowed.") := by
  induction params with
  | nil => simp [firstBadParam] at h
  | cons p rest ih =>
    intro acc
    obtain ⟨key, v⟩ := p
    simp only [firstBadParam] at h
    simp only [buildFormData]
    by_cases hbad : (v.isBlob = false && v.isStr = false) = true
    · rw [if_pos hbad] at h ⊢
      obtain rfl := Option.some.injEq .. ▸ h
      rfl
    · rw [if_neg hbad] at h ⊢
      exact ih h _

/-- C6: a multipart invocation with a parameter that is neither a
string nor a blob fails with a request-data error naming the
offending field, with no request dispatched (the outcome is the same
for every transport, so no network I/O occurs); an invocation whose
body-encoding mode is neither json nor multipart likewise fails with
a request-data error before any network I/O. -/
theorem makeApiCall_request_data_before_network {β σ ε : Type}
    (jsonParse : String → Except String JValue)
    (fetchImpl : Request → FetchOutcome)
    (method : Method) (baseUrl path : String) (params : JSObj)
    (baseResponseSchema : ZodSchema β) (responseSchema : ZodSchema σ)
    (errorResponseSchema : ZodSchema ε)
    (requestContext : RequestContext) (abortSignal : Option Nat) :
    ((∀ k, firstBadParam params = some k →
      makeApiCall jsonParse fetchImpl method baseUrl path params
        BodyContentType.multipart baseResponseSchema responseSchema
        errorResponseSchema requestContext abortSignal =
        (.ok (.err (.requestDataError
          ("Invalid multipart body data type for param " ++ k ++
            ". Only string and Blob are allowed."))), none)) ∧
    (∀ bodyContentType, bodyContentType ≠ BodyContentType.json →
      bodyContentType ≠ BodyContentType.multipart →
      makeApiCall jsonParse fetchImpl method baseUrl path params
        bodyContentType baseResponseSchema responseSchema
        errorResponseSchema requestContext abortSignal =
        (.ok (.err (.requestDataError
          ("Invalid body content type " ++ toString bodyContentType))),
          none))) := by
  constructor
  · intro k hbad
    have hb : mkBody BodyContentType.multipart params = .error
        ("Invalid multipart body data type for param " ++ k ++
          ". Only string and Blob are allowed.") := by
      simp only [mkBody]
      rw [if_neg (by decide), if_pos trivial,
        buildFormData_error params k hbad []]
      rfl
    simp only [makeApiCall, hb]
  · intro bct h0 h1
    have hb : mkBody bct params = .error
        ("Invalid body content type " ++ toString bct) := by
      simp only [mkBody]
      rw [if_neg h0, if_neg h1]
    simp only [makeApiCall, hb]

theorem makeApiCall_request_data_before_network_witness :
    makeApiCall cexJsonParse cexFetch .POST "https://api.example.com"
      "/upload" [("file", JSVal.num 7)] BodyContentType.multipart
      cexSchema cexSchema cexSchema { headers := [] } none =
      (.ok (.err (.requestDataError
        ("Invalid multipart body data type for param file. Only string and Blob are allowed."))),
        none) ∧
    makeApiCall cexJsonParse cexFetch .POST "https://api.example.com"
      "/upload" [] 7 cexSchema cexSchema cexSchema { headers := [] } none =
      (.ok (.err (.requestDataError "Invalid body content type 7")), none) := by
  have h := makeApiCall_request_data_before_network cexJsonParse cexFetch
    .POST "https://api.example.com" "/upload" [("file", JSVal.num 7)]
    cexSchema cexSchema cexSchema { headers := [] } none
  have h2 := makeApiCall_request_data_before_network cexJsonParse cexFetch
    .POST "https://api.example.com" "/upload" []
    cexSchema cexSchema cexSchema { headers := [] } none
  refine ⟨?_, ?_⟩
  · have := h.1 "file" (by decide)
    simpa using this
  · have := h2.2 7 (by decide) (by decide)
    simpa using this


/-- C4: under zod's contract that schema validation only ever throws
ZodError values, the Endpoint Invoker never raises: its promise
always settles with a Result, and each of the five error conditions
— request-data error, fetch error, the two parse errors, schema
error (on either status path) and error-response error — settles as
the failure branch of that Result. -/
theorem makeApiCall_never_raises {β σ ε : Type}
    (jsonParse : String → Except String JValue)
    (fetchImpl : Request → FetchOutcome)
    (method : Method) (baseUrl path : String) (params : JSObj)
    (bodyContentType : Nat) (baseResponseSchema : ZodSchema β)
    (responseSchema : ZodSchema σ) (errorResponseSchema : ZodSchema ε)
    (requestContext : RequestContext) (abortSignal : Option Nat)
    (hbase : baseResponseSchema.Tame) (hresp : responseSchema.Tame)
    (herr : errorResponseSchema.Tame) :
    ((∃ r, (makeApiCall jsonParse fetchImpl method baseUrl path params
        bodyContentType baseResponseSchema responseSchema
        errorResponseSchema requestContext abortSignal).1 = .ok r) ∧
    (∀ msg, mkBody bodyContentType params = .error msg →
      (makeApiCall jsonParse fetchImpl method baseUrl path params
        bodyContentType baseResponseSchema responseSchema
        errorResponseSchema requestContext abortSignal).1 =
        .ok (.err (.requestDataError msg))) ∧
    (∀ body m, mkBody bodyContentType params = .ok body →
      fetchImpl (buildRequest method baseUrl path params bodyContentType
        requestContext body abortSignal) = .throws m →
      (makeApiCall jsonParse fetchImpl method baseUrl path params
        bodyContentType baseResponseSchema responseSchema
        errorResponseSchema requestContext abortSignal).1 =
        .ok (.err (.fetchAPIError ("Error making API call: " ++ m) m))) ∧
    (∀ body response m, mkBody bodyContentType params = .ok body →
      fetchImpl (buildRequest method baseUrl path params bodyContentType
        requestContext body abortSignal) = .returns response →
      response.textResult = .error m →
      (makeApiCall jsonParse fetchImpl method baseUrl path params
        bodyContentType baseResponseSchema responseSchema
        errorResponseSchema requestContext abortSignal).1 =
        .ok (.err (.parseAPIError
          ("Error reading response body, failed while parsing as text: " ++ m)
          m none))) ∧
    (∀ body response bodyText m, mkBody bodyContentType params = .ok body →
      fetchImpl (buildRequest method baseUrl path params bodyContentType
        requestContext body abortSignal) = .returns response →
      response.textResult = .ok bodyText →
      jsonParse bodyText = .error m →
      (makeApiCall jsonParse fetchImpl method baseUrl path params
        bodyContentType baseResponseSchema responseSchema
        errorResponseSchema requestContext abortSignal).1 =
        .ok (.err (.parseAPIError
          ("Error parsing response body as JSON: " ++ m) m
          (some bodyText))))) := by
  refine ⟨?_, ?_, ?_, ?_, ?_⟩
  · cases hmb : mkBody bodyContentType params with
    | error msg =>
      exact ⟨.err (.requestDataError msg), by simp [makeApiCall, hmb]⟩
    | ok body =>
      cases hf : fetchImpl (buildRequest method baseUrl path params
          bodyContentType requestContext body abortSignal) with
      | throws m =>
        exact ⟨.err (.fetchAPIError ("Error making API call: " ++ m) m),
          by simp [makeApiCall, hmb, hf]⟩
      | returns response =>
        cases ht : response.textResult with
        | error m =>
          exact ⟨.err (.parseAPIError
            ("Error reading response body, failed while parsing as text: " ++ m)
            m none), by simp [makeApiCall, hmb, hf, ht]⟩
        | ok bodyText =>
          cases hj : jsonParse bodyText with
          | error m =>
            exact ⟨.err (.parseAPIError
              ("Error parsing response body as JSON: " ++ m) m (some bodyText)),
              by simp [makeApiCall, hmb, hf, ht, hj]⟩
          | ok bodyJSON =>
            cases hok : response.ok with
            | false =>
              cases hp : (errorResponseSchema.and baseResponseSchema).parse
                  bodyJSON with
              | error e =>
                cases e with
                | zodError issues =>
                  exact ⟨.err (.schemaAPIError
                    "Error validating error response body schema" issues
                    (some bodyJSON)),
                    by simp [makeApiCall, hmb, hf, ht, hj, hok, hp]⟩
                | other m =>
                  exact absurd hp (tame_and herr hbase bodyJSON m)
              | ok eb =>
                exact ⟨.err (.errorResponseAPIError response.statusText
                  response.status eb),
                  by simp [makeApiCall, hmb, hf, ht, hj, hok, hp]⟩
            | true =>
              cases hp : (responseSchema.and baseResponseSchema).parse
                  bodyJSON with
              | error e =>
                cases e with
                | zodError issues =>
                  exact ⟨.err (.schemaAPIError
                    "Error validating response body schema" issues
                    (some bodyJSON)),
                    by simp [makeApiCall, hmb, hf, ht, hj, hok, hp]⟩
                | other m =>
                  exact absurd hp (tame_and hresp hbase bodyJSON m)
              | ok b =>
                exact ⟨.ok { status := response.status, body := b },
                  by simp [makeApiCall, hmb, hf, ht, hj, hok, hp]⟩
  · intro msg hmb
    simp only [makeApiCall, hmb]
  · intro body m hmb hf
    simp only [makeApiCall, hmb, hf]
  · intro body response m hmb hf ht
    simp only [makeApiCall, hmb, hf, ht]
  · intro body response bodyText m hmb hf ht hj
    simp only [makeApiCall, hmb, hf, ht, hj]

theorem makeApiCall_never_raises_witness :
    (∃ r, (makeApiCall cexJsonParse cexFetch .GET "https://api.example.com"
      "/health" [] BodyContentType.json cexSchema cexSchema cexSchema
      { headers := [] } none).1 = .ok r) ∧
    (makeApiCall cexJsonParse cexFetch .GET "https://api.example.com"
      "/health" [] BodyContentType.json cexSchema cexSchema cexSchema
      { headers := [] } none).1 =
      .ok (.err (.fetchAPIError
        ("Error making API call: network unreachable") "network unreachable")) := by
  have h := makeApiCall_never_raises cexJsonParse cexFetch .GET
    "https://api.example.com" "/health" [] BodyContentType.json
    cexSchema cexSchema cexSchema { headers := [] } none
    (fun _ _ h => by simp [cexSchema] at h)
    (fun _ _ h => by simp [cexSchema] at h)
    (fun _ _ h => by simp [cexSchema] at h)
  exact ⟨h.1, h.2.2.1 (.jsonStringified []) "network unreachable" rfl rfl⟩


theorem makeApiCall_snd {β σ ε : Type}
    (jsonParse : String → Except String JValue)
    (fetchImpl : Request → FetchOutcome)
    (method : Method) (baseUrl path : String) (params : JSObj)
    (bodyContentType : Nat) (baseResponseSchema : ZodSchema β)
    (responseSchema : ZodSchema σ) (errorResponseSchema : ZodSchema ε)
    (requestContext : RequestContext) (abortSignal : Option Nat) :
    (makeApiCall jsonParse fetchImpl method baseUrl path params
      bodyContentType baseResponseSchema responseSchema
      errorResponseSchema requestContext abortSignal).2 =
      match mkBody bodyContentType params with
      | .error _ => none
      | .ok body => some (buildRequest method baseUrl path params
          bodyContentType requestContext body abortSignal) := by
  simp only [makeApiCall]
  cases mkBody bodyContentType params with
  | error msg => rfl
  | ok body =>
    simp only []
    repeat (first | rfl | split)

/-- C3 counterexample: with a caller-supplied transport override
`fetchOptions.credentials = "omit"` (the very field the repository's
service layer passes), the one dispatched request of the client's
endpoint still carries credentials mode `"include"`: the override is
not merged into the dispatched request. -/
theorem createAPIClient_transport_override_cex :
    cexOpts.fetchOptions = some { credentials := some "omit" } ∧
    cexDispatchedCredentials = [some "include"] ∧
    (some "include" : Option String) ≠ some "omit" := by
  refine ⟨rfl, ?_, by decide⟩
  simp [cexDispatchedCredentials, createAPIClient, cexOpts, makeApiCall,
    mkBody, cexFetch, buildRequest, jsOrDefault, BodyContentType.json]

/-- C3 amended: the factory ignores caller-supplied `fetchOptions`
entirely — the produced client is identical for every value of that
field — and, uniformly for every endpoint of a client instance, each
dispatched request carries the hard-coded credentials mode
`"include"` merged with the per-call abort signal. -/
theorem createAPIClient_transport_uniform {β σ ε : Type}
    (jsonParse : String → Except String JValue)
    (fetchImpl : Request → FetchOutcome) (o : CreateOpts β σ ε) :
    ((∀ fo, createAPIClient jsonParse fetchImpl
        { o with fetchOptions := fo } =
        createAPIClient jsonParse fetchImpl o) ∧
    (∀ e f, (e, f) ∈ createAPIClient jsonParse fetchImpl o →
      ∀ params sig req, (f params sig).2 = some req →
        req.credentials = "include" ∧ req.signal = sig)) := by
  constructor
  · intro fo
    rfl
  · intro e f hmem params sig req hreq
    simp only [createAPIClient, List.mem_map] at hmem
    obtain ⟨p, hp, hpe⟩ := hmem
    obtain ⟨he, hf⟩ := Prod.mk.injEq .. ▸ hpe
    subst hf
    rw [makeApiCall_snd] at hreq
    cases hmb : mkBody (jsOrDefault p.2.bodyContentType BodyContentType.json)
        params with
    | error msg => rw [hmb] at hreq; exact absurd hreq (by simp)
    | ok body =>
      rw [hmb] at hreq
      obtain rfl := Option.some.injEq .. ▸ hreq
      exact ⟨rfl, rfl⟩

theorem createAPIClient_transport_uniform_witness :
    createAPIClient cexJsonParse cexFetch
      { cexOpts with fetchOptions := none } =
      createAPIClient cexJsonParse cexFetch cexOpts ∧
    (buildRequest .GET "https://api.example.com" "/health" []
      BodyContentType.json { headers := [] } (.jsonStringified [])
      (some 5)).credentials = "include" ∧
    (buildRequest .GET "https://api.example.com" "/health" []
      BodyContentType.json { headers := [] } (.jsonStringified [])
      (some 5)).signal = some 5 := by
  have h := createAPIClient_transport_uniform cexJsonParse cexFetch cexOpts
  have h2 := h.2 "health"
    (fun params abortSignal =>
      makeApiCall cexJsonParse cexFetch Method.GET "https://api.example.com"
        "/health" params (jsOrDefault none BodyContentType.json) cexSchema
        cexSchema cexSchema { headers := [] } abortSignal)
    (by simp [createAPIClient, cexOpts]) [] (some 5) _ rfl
  exact ⟨h.1 none, h2.1, h2.2⟩

/-- C9: the header set of a dispatched request is a snapshot taken at
call time: over any serialized trace of context operations, the
snapshots recorded by the dispatches in a prefix are unchanged by
whatever mutations follow (and each dispatch takes its own snapshot
of the state at its own position); and the request `makeApiCall`
dispatches carries exactly the snapshot of the supplied context. -/
theorem requestContext_snapshot_immune (ctx : RequestContext)
    (evts1 evts2 : List CtxEvent) :
    ((ctxRun ctx (evts1 ++ evts2)).2 =
      (ctxRun ctx evts1).2 ++ (ctxRun (ctxRun ctx evts1).1 evts2).2) ∧
    (∀ (β σ ε : Type) (jsonParse : String → Except String JValue)
      (fetchImpl : Request → FetchOutcome) (method : Method)
      (baseUrl path : String) (params : JSObj) (bodyContentType : Nat)
      (baseResponseSchema : ZodSchema β) (responseSchema : ZodSchema σ)
      (errorResponseSchema : ZodSchema ε) (abortSignal : Option Nat)
      (req : Request),
      (makeApiCall jsonParse fetchImpl method baseUrl path params
        bodyContentType baseResponseSchema responseSchema
        errorResponseSchema ctx abortSignal).2 = some req →
      req.headers = buildHeaders ctx bodyContentType) := by
  constructor
  · induction evts1 generalizing ctx with
    | nil => simp [ctxRun]
    | cons e rest ih =>
      cases e with
      | add n v => simp [ctxRun, ih]
      | remove n => simp [ctxRun, ih]
      | dispatch bct => simp [ctxRun, ih]
  · intro β σ ε jsonParse fetchImpl method baseUrl path params bct
      baseS respS errS sig req hreq
    rw [makeApiCall_snd] at hreq
    cases hmb : mkBody bct params with
    | error msg => rw [hmb] at hreq; exact absurd hreq (by simp)
    | ok body =>
      rw [hmb] at hreq
      obtain rfl := Option.some.injEq .. ▸ hreq
      rfl

theorem requestContext_snapshot_immune_witness :
    ((ctxRun { headers := [("X-Auth-Token", "t1")] }
        ([CtxEvent.dispatch BodyContentType.multipart] ++
          [CtxEvent.add "X-Auth-Token" "t2"])).2 =
      (ctxRun { headers := [("X-Auth-Token", "t1")] }
        [CtxEvent.dispatch BodyContentType.multipart]).2 ++
      (ctxRun (ctxRun { headers := [("X-Auth-Token", "t1")] }
        [CtxEvent.dispatch BodyContentType.multipart]).1
        [CtxEvent.add "X-Auth-Token" "t2"]).2) ∧
    (buildRequest .GET "https://api.example.com" "/health" []
      BodyContentType.json { headers := [("X-Auth-Token", "t1")] }
      (.jsonStringified []) none).headers =
      buildHeaders { headers := [("X-Auth-Token", "t1")] }
        BodyContentType.json := by
  have h := requestContext_snapshot_immune
    { headers := [("X-Auth-Token", "t1")] }
    [CtxEvent.dispatch BodyContentType.multipart]
    [CtxEvent.add "X-Auth-Token" "t2"]
  exact ⟨h.1, h.2 Unit Unit Unit cexJsonParse cexFetch .GET
    "https://api.example.com" "/health" [] BodyContentType.json
    cexSchema cexSchema cexSchema none _ rfl⟩


@[simp] theorem abortCurrent_result {R : Type} (st : HookSt R) :
    (abortCurrent st).result = st.result := by
  unfold abortCurrent
  cases st.current <;> rfl

@[simp] theorem abortCurrent_loading {R : Type} (st : HookSt R) :
    (abortCurrent st).loading = st.loading := by
  unfold abortCurrent
  cases st.current <;> rfl

@[simp] theorem abortCurrent_p1 {R : Type} (st : HookSt R) :
    (abortCurrent st).p1 = st.p1 := by
  unfold abortCurrent
  cases st.current <;> rfl

@[simp] theorem abortCurrent_p2 {R : Type} (st : HookSt R) :
    (abortCurrent st).p2 = st.p2 := by
  unfold abortCurrent
  cases st.current <;> rfl

@[simp] theorem phase_false {R : Type} (st : HookSt R) :
    st.phase false = st.p1 := rfl

@[simp] theorem phase_true {R : Type} (st : HookSt R) :
    st.phase true = st.p2 := rfl

theorem setPhase_false {R : Type} (st : HookSt R) (p : Phase) :
    st.setPhase false p = { st with p1 := p } := rfl

theorem setPhase_true {R : Type} (st : HookSt R) (p : Phase) :
    st.setPhase true p = { st with p2 := p } := rfl

theorem launch_false {R : Type} (st : HookSt R) (b : Bool) :
    launch st false b =
      { st with
        current := some st.nextGen
        nextGen := st.nextGen + 1
        result := none
        loading := true
        p1 := .inFlight b } := rfl

theorem launch_true {R : Type} (st : HookSt R) (b : Bool) :
    launch st true b =
      { st with
        current := some st.nextGen
        nextGen := st.nextGen + 1
        result := none
        loading := true
        p2 := .inFlight b } := rfl

@[simp] theorem isInFlight_notStarted : (Phase.notStarted).isInFlight = false := rfl

@[simp] theorem isInFlight_waitingTick : (Phase.waitingTick).isInFlight = false := rfl

@[simp] theorem isInFlight_inFlight (b : Bool) : (Phase.inFlight b).isInFlight = true := rfl

@[simp] theorem isInFlight_done (b : Bool) : (Phase.done b).isInFlight = false := rfl

@[simp] theorem isInFlight_threw : (Phase.threw).isInFlight = false := rfl

@[simp] theorem isDone_notStarted : (Phase.notStarted).isDone = false := rfl

@[simp] theorem isDone_waitingTick : (Phase.waitingTick).isDone = false := rfl

@[simp] theorem isDone_inFlight (b : Bool) : (Phase.inFlight b).isDone = false := rfl

@[simp] theorem isDone_done (b : Bool) : (Phase.done b).isDone = true := rfl

@[simp] theorem isDone_threw : (Phase.threw).isDone = false := rfl

theorem good_step {R : Type} {v1 v2 : R} {ev : HookEv} {st st' : HookSt R}
    (hg : Good v2 st) (hs : hookStep v1 v2 ev st = some st') : Good v2 st' := by
  obtain ⟨g1, g2, g3, g4, g5⟩ := hg
  cases ev with
  | start second =>
    simp only [hookStep] at hs
    split at hs
    case isFalse => exact absurd hs (by simp)
    case isTrue hp =>
      cases second with
      | false =>
        rw [phase_false] at hp
        by_cases hld : st.loading = true
        · rw [if_pos hld, setPhase_false] at hs
          injection hs with hs
          subst hs
          have hp2inf : st.p2.isInFlight = true := by
            rcases g1.mp hld with h1 | h2
            · rw [hp] at h1
              simp at h1
            · exact h2
          refine ⟨?_, ?_, ?_, ?_, ?_⟩ <;>
            simp only [abortCurrent_result, abortCurrent_loading,
              abortCurrent_p1, abortCurrent_p2]
          · simp [hld, hp2inf]
          · simp
          · intro hw
            rw [hw] at hp2inf
            simp at hp2inf
          · intro hw
            have h4 := g4 hw
            rw [hp] at h4
            simp at h4
          · intro hw
            have h5 := (g5 hw).1
            rw [hp] at h5
            simp at h5
        · rw [if_neg hld, launch_false] at hs
          injection hs with hs
          subst hs
          have hldf : st.loading = false := by simpa using hld
          have hnofl : ¬(st.p1.isInFlight = true ∨ st.p2.isInFlight = true) := by
            intro hcon
            rw [g1.mpr hcon] at hldf
            simp at hldf
          refine ⟨?_, ?_, ?_, ?_, ?_⟩ <;>
            simp only [abortCurrent_result, abortCurrent_loading,
              abortCurrent_p1, abortCurrent_p2]
          · simp
          · intro hcon
            exact hnofl (Or.inr hcon.2)
          · intro _
            simp
          · intro hw
            have h4 := g4 hw
            rw [hp] at h4
            simp at h4
          · intro hw
            have h5 := (g5 hw).1
            rw [hp] at h5
            simp at h5
      | true =>
        rw [phase_true] at hp
        by_cases hld : st.loading = true
        · rw [if_pos hld, setPhase_true] at hs
          injection hs with hs
          subst hs
          have hp1inf : st.p1.isInFlight = true := by
            rcases g1.mp hld with h1 | h2
            · exact h1
            · rw [hp] at h2
              simp at h2
          refine ⟨?_, ?_, ?_, ?_, ?_⟩ <;>
            simp only [abortCurrent_result, abortCurrent_loading,
              abortCurrent_p1, abortCurrent_p2]
          · simp [hld, hp1inf]
          · simp
          · intro _
            exact Or.inl hp1inf
          · intro hcon
            simp at hcon
          · intro hcon
            simp at hcon
        · rw [if_neg hld, launch_true] at hs
          injection hs with hs
          subst hs
          have hldf : st.loading = false := by simpa using hld
          have hnofl : ¬(st.p1.isInFlight = true ∨ st.p2.isInFlight = true) := by
            intro hcon
            rw [g1.mpr hcon] at hldf
            simp at hldf
          refine ⟨?_, ?_, ?_, ?_, ?_⟩ <;>
            simp only [abortCurrent_result, abortCurrent_loading,
              abortCurrent_p1, abortCurrent_p2]
          · simp
          · intro hcon
            exact hnofl (Or.inl hcon.1)
          · intro hcon
            simp at hcon
          · intro hcon
            simp at hcon
          · intro hcon
            simp at hcon
  | tick second =>
    simp only [hookStep] at hs
    split at hs
    case isFalse => exact absurd hs (by simp)
    case isTrue hp =>
      cases second with
      | false =>
        rw [phase_false] at hp
        by_cases hld : st.loading = true
        · rw [if_pos hld, setPhase_false] at hs
          injection hs with hs
          subst hs
          have hp2inf : st.p2.isInFlight = true := by
            rcases g1.mp hld with h1 | h2
            · rw [hp] at h1
              simp at h1
            · exact h2
          refine ⟨?_, ?_, ?_, ?_, ?_⟩ <;>
            simp only [abortCurrent_result, abortCurrent_loading,
              abortCurrent_p1, abortCurrent_p2]
          · simp [hld, hp2inf]
          · simp
          · intro hw
            rw [hw] at hp2inf
            simp at hp2inf
          · intro hw
            have h4 := g4 hw
            rw [hp] at h4
            simp at h4
          · intro hw
            have h5 := (g5 hw).1
            rw [hp] at h5
            simp at h5
        · rw [if_neg hld, launch_false] at hs
          injection hs with hs
          subst hs
          have hldf : st.loading = false := by simpa using hld
          have hnofl : ¬(st.p1.isInFlight = true ∨ st.p2.isInFlight = true) := by
            intro hcon
            rw [g1.mpr hcon] at hldf
            simp at hldf
          refine ⟨?_, ?_, ?_, ?_, ?_⟩ <;>
            simp only [abortCurrent_result, abortCurrent_loading,
              abortCurrent_p1, abortCurrent_p2]
          · simp
          · intro hcon
            exact hnofl (Or.inr hcon.2)
          · intro _
            simp
          · intro hw
            exact absurd (Or.inr (by rw [hw]; rfl)) hnofl
          · intro hw
            have h5 := (g5 hw).1
            rw [hp] at h5
            simp at h5
      | true =>
        rw [phase_true] at hp
        by_cases hld : st.loading = true
        · rw [if_pos hld, setPhase_true] at hs
          injection hs with hs
          subst hs
          have hp1inf : st.p1.isInFlight = true := by
            rcases g1.mp hld with h1 | h2
            · exact h1
            · rw [hp] at h2
              simp at h2
          refine ⟨?_, ?_, ?_, ?_, ?_⟩ <;>
            simp only [abortCurrent_result, abortCurrent_loading,
              abortCurrent_p1, abortCurrent_p2]
          · simp [hld, hp1inf]
          · simp
          · intro hcon
            simp at hcon
          · intro hcon
            simp at hcon
          · intro hcon
            simp at hcon
        · rw [if_neg hld, launch_true] at hs
          injection hs with hs
          subst hs
          have hldf : st.loading = false := by simpa using hld
          have hnofl : ¬(st.p1.isInFlight = true ∨ st.p2.isInFlight = true) := by
            intro hcon
            rw [g1.mpr hcon] at hldf
            simp at hldf
          have hp1done : st.p1.isDone = true := by
            rcases g3 hp with h1 | h2
            · exact absurd (Or.inl h1) hnofl
            · exact h2
          refine ⟨?_, ?_, ?_, ?_, ?_⟩ <;>
            simp only [abortCurrent_result, abortCurrent_loading,
              abortCurrent_p1, abortCurrent_p2]
          · simp
          · intro hcon
            exact hnofl (Or.inl hcon.1)
          · intro hcon
            simp at hcon
          · intro _
            exact hp1done
          · intro hcon
            simp at hcon
  | resolve second =>
    simp only [hookStep] at hs
    cases second with
    | false =>
      rw [phase_false] at hs
      cases hp : st.p1 with
      | inFlight b =>
        rw [hp] at hs
        simp only [setPhase_false] at hs
        injection hs with hs
        subst hs
        have hnofl2 : ¬(st.p2.isInFlight = true) := by
          intro hcon
          exact g2 ⟨by rw [hp]; rfl, hcon⟩
        refine ⟨?_, ?_, ?_, ?_, ?_⟩ <;>
          simp only [abortCurrent_result, abortCurrent_loading,
            abortCurrent_p1, abortCurrent_p2]
        · simp
          simpa using hnofl2
        · simp
        · intro _
          simp
        · intro _
          simp
        · intro hw
          have h5 := (g5 hw).1
          rw [hp] at h5
          simp at h5
      | notStarted => rw [hp] at hs; exact absurd hs (by simp)
      | waitingTick => rw [hp] at hs; exact absurd hs (by simp)
      | done b => rw [hp] at hs; exact absurd hs (by simp)
      | threw => rw [hp] at hs; exact absurd hs (by simp)
    | true =>
      rw [phase_true] at hs
      cases hp : st.p2 with
      | inFlight b =>
        rw [hp] at hs
        simp only [setPhase_true] at hs
        injection hs with hs
        subst hs
        have hnofl1 : ¬(st.p1.isInFlight = true) := by
          intro hcon
          exact g2 ⟨hcon, by rw [hp]; rfl⟩
        refine ⟨?_, ?_, ?_, ?_, ?_⟩ <;>
          simp only [abortCurrent_result, abortCurrent_loading,
            abortCurrent_p1, abortCurrent_p2]
        · simp
          simpa using hnofl1
        · simp
        · intro hcon
          simp at hcon
        · intro hcon
          simp at hcon
        · intro hw
          have hb : b = true := by
            have hd : Phase.done b = Phase.done true := hw
            injection hd
          subst hb
          exact ⟨g4 hp, rfl⟩
      | notStarted => rw [hp] at hs; exact absurd hs (by simp)
      | waitingTick => rw [hp] at hs; exact absurd hs (by simp)
      | done b => rw [hp] at hs; exact absurd hs (by simp)
      | threw => rw [hp] at hs; exact absurd hs (by simp)


theorem good_init {R : Type} (v2 : R) : Good v2 (@hookInit R) := by
  refine ⟨?_, ?_, ?_, ?_, ?_⟩ <;> simp [hookInit]

theorem good_run {R : Type} {v1 v2 : R} :
    ∀ (tr : List HookEv) (st st' : HookSt R),
      hookRun v1 v2 tr st = some st' → Good v2 st → Good v2 st' := by
  intro tr
  induction tr with
  | nil =>
    intro st st' h hg
    simp only [hookRun] at h
    injection h with h
    subst h
    exact hg
  | cons e rest ih =>
    intro st st' h hg
    simp only [hookRun] at h
    cases hstep : hookStep v1 v2 e st with
    | none => rw [hstep] at h; exact absurd h (by simp)
    | some st1 =>
      rw [hstep] at h
      exact ih st1 st' h (good_step hg hstep)

/-- C2: in every schedule of the hook machine in which the second
call went through the overlap path (it found the first call in flight
when it started, cancelled it, and passed the one-tick check) and its
promise settled, the stored result is the second call's value — the
first call's resolution has necessarily already been committed and
then discarded, and no resolution of the superseded call can arrive
after the superseding call's writes (its promise settles at most
once, and it must have settled before the second call launched). -/
theorem useAsyncResult_latest_call_wins {R : Type} (v1 v2 : R)
    (tr : List HookEv) (st : HookSt R)
    (hrun : hookRun v1 v2 tr hookInit = some st)
    (hdone2 : st.p2 = .done true) :
    st.result = some v2 ∧ st.p1.isDone = true := by
  have hg := good_run tr hookInit st hrun (good_init v2)
  exact ⟨(hg.2.2.2.2 hdone2).2, (hg.2.2.2.2 hdone2).1⟩

theorem useAsyncResult_latest_call_wins_witness :
    stOverlapFinal.result = some 2 ∧ stOverlapFinal.p1.isDone = true := by
  have hrun : hookRun 1 2 [HookEv.start false, HookEv.start true,
      HookEv.resolve false, HookEv.tick true, HookEv.resolve true] hookInit =
      some stOverlapFinal := by
    rfl
  exact useAsyncResult_latest_call_wins 1 2 _ _ hrun rfl

/-- C8: invoking `call` while a previous call is in flight first
aborts the current controller's generation — writing neither result
nor loading, and launching nothing — and suspends on the one-tick
timer; when the timer fires, the machine throws the fatal internal
error exactly when the loading flag has still not cleared, and
otherwise the new call launches normally (fresh controller, cleared
result, loading set). -/
theorem useAsyncResult_overlap_cancel_tick {R : Type} (v1 v2 : R)
    (st : HookSt R) (g : Nat) :
    ((st.p2 = .notStarted → st.loading = true → st.current = some g →
      ∃ st', hookStep v1 v2 (.start true) st = some st' ∧
        g ∈ st'.aborted ∧ st'.result = st.result ∧ st'.loading = true ∧
        st'.p2 = .waitingTick ∧ st'.p1 = st.p1) ∧
    (∀ st', st.p2 = .waitingTick →
      hookStep v1 v2 (.tick true) st = some st' →
      ((st'.p2 = .threw ↔ st.loading = true) ∧
      (st.loading = false →
        st'.p2 = .inFlight true ∧ st'.loading = true ∧
        st'.result = none)))) := by
  constructor
  · intro hp hld hcur
    refine ⟨(abortCurrent st).setPhase true .waitingTick, ?_, ?_, ?_, ?_, ?_, ?_⟩
    · simp [hookStep, hp, hld]
    · simp [setPhase_true, abortCurrent, hcur]
    · simp [setPhase_true]
    · simp [setPhase_true, hld]
    · simp [setPhase_true]
    · simp [setPhase_true]
  · intro st' hp hstep
    simp only [hookStep, phase_true, hp, if_pos] at hstep
    by_cases hld : st.loading = true
    · rw [if_pos hld, setPhase_true] at hstep
      injection hstep with hstep
      subst hstep
      refine ⟨by simp [hld], ?_⟩
      intro hldf
      rw [hldf] at hld
      exact absurd hld (by simp)
    · rw [if_neg hld, launch_true] at hstep
      injection hstep with hstep
      subst hstep
      have hldf : st.loading = false := by simpa using hld
      refine ⟨by simp [hldf], ?_⟩
      intro _
      exact ⟨rfl, rfl, rfl⟩

theorem useAsyncResult_overlap_cancel_tick_witness :
    (∃ st', hookStep 1 2 (HookEv.start true) stOverlapA = some st' ∧
      0 ∈ st'.aborted ∧ st'.result = stOverlapA.result ∧
      st'.loading = true ∧ st'.p2 = .waitingTick ∧
      st'.p1 = stOverlapA.p1) ∧
    ((stOverlapT.p2 = .threw ↔ stOverlapB.loading = true) ∧
    (stOverlapB.loading = false →
      stOverlapT.p2 = .inFlight true ∧ stOverlapT.loading = true ∧
      stOverlapT.result = none)) := by
  constructor
  · exact (useAsyncResult_overlap_cancel_tick 1 2 stOverlapA 0).1 rfl rfl rfl
  · exact (useAsyncResult_overlap_cancel_tick 1 2 stOverlapB 0).2 stOverlapT
      rfl rfl

end Artenos
